import Mathlib

/-
Shallow embedding of src/config_manager.py.

The module manages named experiment configurations in a JSON store with a
bidirectional mapping (name_to_config / config_to_name), loads serialized
per-run results from a directory, and computes summary statistics.

Modelling decisions, each noted again at the definition it concerns:
- Python dicts are modelled as association lists with first-match lookup,
  replace-in-place-or-append insertion and remove-first deletion; this is
  exactly Python dict semantics on dicts with unique keys, which is the only
  kind Python can produce.
- The store file on disk is `Option Store` (`none` = file absent).
- md5 over the canonical (sorted-keys) JSON serialization is a deterministic
  digest that the code uses only to compare configurations for content
  equality (the spec notes any stable collision-free hash suffices); it is
  modelled as the configuration value itself, so hash equality is structural
  equality of configurations, with key order irrelevant by construction.
- uuid-based random name generation (used when `name=None`) is modelled by
  taking the resolved name as an input parameter.
- Numbers are modelled as rationals (exact arithmetic).
-/

namespace ConfigManager

section PyDict

variable {α : Type} {β : Type} [DecidableEq α]

/-- First-match lookup in an association list: Python `d[k]` / `d.get(k)`
on a dict represented as its entry list. -/
def dictLookup : List (α × β) → α → Option β
  | [], _ => none
  | (k, v) :: rest, key => if k = key then some v else dictLookup rest key

/-- Python `d[k] = v`: replace the value in place when the key is present,
otherwise append the new entry at the end (dict insertion order). -/
def dictInsert : List (α × β) → α → β → List (α × β)
  | [], key, v => [(key, v)]
  | (k, w) :: rest, key, v =>
      if k = key then (key, v) :: rest else (k, w) :: dictInsert rest key v

/-- Python `del d[k]`: remove the (first, hence unique) entry with the key. -/
def dictErase : List (α × β) → α → List (α × β)
  | [], _ => []
  | (k, w) :: rest, key => if k = key then rest else (k, w) :: dictErase rest key

theorem dictLookup_insert (d : List (α × β)) (k k' : α) (v : β) :
    dictLookup (dictInsert d k v) k' = if k' = k then some v else dictLookup d k' := by
  induction d with
  | nil =>
      by_cases h : k' = k
      · simp [dictInsert, dictLookup, h]
      · simp [dictInsert, dictLookup, h, Ne.symm h]
  | cons p rest ih =>
      obtain ⟨a, b⟩ := p
      by_cases hak : a = k
      · subst hak
        by_cases h : k' = a
        · simp [dictInsert, dictLookup, h]
        · simp [dictInsert, dictLookup, h, Ne.symm h]
      · by_cases h : a = k'
        · subst h
          simp [dictInsert, dictLookup, hak, Ne.symm hak, ih]
        · simp [dictInsert, dictLookup, hak, h, ih]

theorem dictLookup_insert_self (d : List (α × β)) (k : α) (v : β) :
    dictLookup (dictInsert d k v) k = some v := by
  simp [dictLookup_insert]

theorem dictLookup_insert_isSome (d : List (α × β)) (k k' : α) (v : β)
    (h : (dictLookup d k').isSome) : (dictLookup (dictInsert d k v) k').isSome := by
  rw [dictLookup_insert]
  by_cases hk : k' = k <;> simp [hk, h]

theorem mem_dictInsert (d : List (α × β)) (k : α) (v : β) (p : α × β)
    (h : p ∈ dictInsert d k v) : p = (k, v) ∨ p ∈ d := by
  induction d with
  | nil => exact Or.inl (by simpa [dictInsert] using h)
  | cons q rest ih =>
      obtain ⟨a, b⟩ := q
      by_cases hak : a = k
      · subst hak
        rcases (by simpa [dictInsert] using h : p = (a, v) ∨ p ∈ rest) with h1 | h1
        · exact Or.inl (by simpa using h1)
        · exact Or.inr (List.mem_cons_of_mem _ h1)
      · rcases (by simpa [dictInsert, hak] using h : p = (a, b) ∨ p ∈ dictInsert rest k v) with h1 | h1
        · exact Or.inr (by simp [h1])
        · rcases ih h1 with h2 | h2
          · exact Or.inl h2
          · exact Or.inr (List.mem_cons_of_mem _ h2)

theorem mem_dictErase (d : List (α × β)) (k : α) (p : α × β)
    (h : p ∈ dictErase d k) : p ∈ d := by
  induction d with
  | nil => simpa [dictErase] using h
  | cons q rest ih =>
      obtain ⟨a, b⟩ := q
      by_cases hak : a = k
      · exact List.mem_cons_of_mem _ (by simpa [dictErase, hak] using h)
      · rcases (by simpa [dictErase, hak] using h : p = (a, b) ∨ p ∈ dictErase rest k) with h1 | h1
        · simp [h1]
        · exact List.mem_cons_of_mem _ (ih h1)

end PyDict

/-- The configuration record assembled at the top of
`manage_experiment_config` / `get_name_by_config`: fields
`rates_cpra, xeno_rates_base, xeno_proportion, low_key, high_key, T`.
The two rate tables are JSON objects; they are modelled as association
lists from keys to rational rates. -/
structure Config where
  rates_cpra : List (String × ℚ)
  xeno_rates_base : List (String × ℚ)
  xeno_proportion : ℚ
  low_key : String
  high_key : String
  T : Int
  deriving DecidableEq

/-- Model of `hashlib.md5(json.dumps(config, sort_keys=True).encode()).hexdigest()`:
a deterministic digest of the canonical sorted-keys serialization, used by the
code only as a reverse-lookup key that coincides exactly when the serialized
configurations coincide. It is modelled as the configuration itself (a
collision-free stable digest); sorted keys make dict key order irrelevant,
which holds by construction for the Lean structure. -/
def configHash (c : Config) : Config := c

/-- The JSON store object: `name_to_config` and `config_to_name` dicts.
Hash keys of `config_to_name` are `configHash` values, i.e. configurations. -/
structure Store where
  name_to_config : List (String × Config)
  config_to_name : List (Config × String)
  deriving DecidableEq

/-- The store created when the config file does not exist. -/
def emptyStore : Store := { name_to_config := [], config_to_name := [] }

/-- Data loaded at the start of `manage_experiment_config`: parse the file if
it exists, otherwise the fresh empty store. The file is `Option Store`,
`none` meaning `os.path.exists(config_file)` is false. -/
def fileData (file : Option Store) : Store :=
  match file with
  | some s => s
  | none => emptyStore

/-- Message of the `ValueError` raised on a name conflict. -/
def nameConflictMsg : String :=
  "Name already exists. Please choose a different name or set overwrite=True."

deriving instance DecidableEq for Except

/-- Outcome of one `manage_experiment_config` call: the returned name or the
raised error, together with the store file contents after the call (the file
is written only by the single `json.dump` at the end of the function, so
every early return and the raise leave it untouched). -/
structure ManageOutcome where
  result : Except String String
  file : Option Store
  deriving DecidableEq

/-- Final write step (lines 121-127): `data['name_to_config'][name] = config`,
`data['config_to_name'][config_hash] = name`, then dump the whole store to the
file; returns `name`. -/
def manageWrite (config : Config) (name : String) (data : Store) : ManageOutcome :=
  { result := Except.ok name,
    file := some
      { name_to_config := dictInsert data.name_to_config name config,
        config_to_name := dictInsert data.config_to_name (configHash config) name } }

/-- Case 2 of `manage_experiment_config` (lines 91-111) followed by the write:
if the name is bound, compare the stored configuration's hash with the new
one; equal hashes return the name with no write; otherwise without overwrite
raise `ValueError`, with overwrite delete the stale `config_to_name` entry
when it still points at this name, then fall through to the write step. -/
def manageCase2 (config : Config) (name : String) (overwrite : Bool)
    (file : Option Store) (data : Store) : ManageOutcome :=
  match dictLookup data.name_to_config name with
  | some existingConfig =>
      if configHash existingConfig = configHash config then
        { result := Except.ok name, file := file }
      else if overwrite then
        manageWrite config name
          { data with
            config_to_name :=
              if dictLookup data.config_to_name (configHash existingConfig) = some name then
                dictErase data.config_to_name (configHash existingConfig)
              else data.config_to_name }
      else
        { result := Except.error nameConflictMsg, file := file }
  | none => manageWrite config name data

/-- Model of `manage_experiment_config(..., name, config_file, overwrite)`
(src/config_manager.py lines 8-133). The assembled configuration and the
resolved name are parameters (when Python's `name` is `None` a random
`exp_<uuid>` name is generated first and the logic below is unchanged).
Case 1 (lines 78-89): when the configuration hash is already mapped, return
the mapped name when it equals the requested one, or — without overwrite —
return the existing name; with overwrite fall through to Case 2. -/
def manage_experiment_config (config : Config) (name : String) (overwrite : Bool)
    (file : Option Store) : ManageOutcome :=
  match dictLookup (fileData file).config_to_name (configHash config) with
  | some existingName =>
      if existingName = name then
        { result := Except.ok name, file := file }
      else if overwrite then
        manageCase2 config name overwrite file (fileData file)
      else
        { result := Except.ok existingName, file := file }
  | none => manageCase2 config name overwrite file (fileData file)

/-- Model of `get_name_by_config` (lines 164-210): recompute the hash; return `None`
when the store file is absent, else `data['config_to_name'].get(hash, None)`. -/
def get_name_by_config (config : Config) (file : Option Store) : Option String :=
  match file with
  | none => none
  | some data => dictLookup data.config_to_name (configHash config)

/-- Message of the `ValueError` raised by `int()` on a non-integer string. -/
def intParseMsg : String := "invalid literal for int() with base 10"

/-- Python `s.split(sep)` for a single-character separator (the code splits
on "_" and on "."), on the character list of the string: splitting never
yields the empty list, the empty string splits to `[[]]`, and separators at
the ends produce empty segments, exactly as in Python. -/
def pySplit (sep : Char) : List Char → List (List Char)
  | [] => [[]]
  | c :: rest =>
      if c = sep then [] :: pySplit sep rest
      else
        match pySplit sep rest with
        | [] => [[c]]
        | w :: ws => (c :: w) :: ws

/-- Python `s.startswith(p)`. -/
def pyStartsWith (s p : String) : Bool := p.toList.isPrefixOf s.toList

/-- Python `s.endswith(p)`. -/
def pyEndsWith (s p : String) : Bool := p.toList.isSuffixOf s.toList

/-- Files selected by the `os.listdir` loop (lines 265-267): names starting
with `<config_name>_` and ending with `.pkl`. The directory listing (whose
order `os.listdir` does not specify) is the `listing` parameter. -/
def matchingFiles (configName : String) (listing : List String) : List String :=
  listing.filter (fun f => pyStartsWith f (configName ++ "_") && pyEndsWith f ".pkl")

/-- The sort-key segment of a filename (line 270):
`x.split("_")[-1].split(".")[0]`. Both splits always return a non-empty
list, so the `[-1]` / `[0]` indexings cannot fail; the defaults of
`getLastD` / `headD` are unreachable. -/
def runIndexStr (filename : String) : String :=
  String.mk ((pySplit '.' ((pySplit '_' filename.toList).getLastD [])).headD [])

/-- Decimal digit run for the model of `int()`: `none` unless the character
list is a non-empty run of ASCII digits. -/
def digitsToNat (cs : List Char) : Option Nat :=
  if cs = [] then none
  else if cs.all Char.isDigit then
    some (cs.foldl (fun a c => a * 10 + (c.toNat - 48)) 0)
  else none

/-- Python `s.strip()` as performed by `int()`: whitespace removed from both
ends. -/
def pyTrim (cs : List Char) : List Char :=
  ((cs.dropWhile Char.isWhitespace).reverse.dropWhile Char.isWhitespace).reverse

/-- Model of Python `int(s)` as used on the filename segment (line 270):
surrounding whitespace is stripped, then an optional sign followed by a
non-empty run of decimal digits; anything else raises `ValueError`
(modelled as `none`). Non-ASCII digits and `_` digit grouping, which
Python also accepts, are not modelled; no `_` or `.` can occur in the
segment `runIndexStr` produces. -/
def pyInt (s : String) : Option Int :=
  match pyTrim s.toList with
  | [] => none
  | '+' :: rest => (digitsToNat rest).map (fun n => (n : Int))
  | '-' :: rest => (digitsToNat rest).map (fun n => -(n : Int))
  | cs => (digitsToNat cs).map (fun n => (n : Int))

/-- Decoration step of `experiment_files.sort(key=...)` (line 270): the sort
key `int(x.split("_")[-1].split(".")[0])` of every matching file; `none` as
soon as one key raises `ValueError` (CPython computes all keys before
comparing, so a bad key aborts the sort with no partial result). -/
def fileKeys : List String → Option (List (Int × String))
  | [] => some []
  | f :: rest =>
      match pyInt (runIndexStr f), fileKeys rest with
      | some k, some ks => some ((k, f) :: ks)
      | _, _ => none

/-- Model of `load_experiment_results` (lines 236-279) on the filename level: filter
the listing, sort ascending by the integer run index (Python `list.sort` is
a stable sort by the key function, modelled by stable insertion sort on the
decorated list), and return the filenames in load order. Deserialization
(`pickle.load` on each file, in this order) is performed by the caller via a
read function, since pickled payloads are opaque here. -/
def load_experiment_results (configName : String) (listing : List String) :
    Except String (List String) :=
  match fileKeys (matchingFiles configName listing) with
  | none => Except.error intParseMsg
  | some keyed =>
      Except.ok ((keyed.insertionSort (fun a b => a.1 ≤ b.1)).map Prod.snd)

/-- The `run_system` output tuple as unpacked at lines 309-310, in exact
positional order; each component is a time series, modelled as a list of
rationals. -/
structure ExperimentResult where
  C_low : List ℚ
  C_high : List ℚ
  xeno_used : List ℚ
  waitlist_deaths_low : List ℚ
  waitlist_deaths_high : List ℚ
  post_tx_deaths_low : List ℚ
  post_tx_deaths_high : List ℚ
  total_deaths : List ℚ
  H_low : List ℚ
  H_high_std : List ℚ
  H_high_xeno : List ℚ
  times : List ℚ
  deriving DecidableEq

/-- Python `series[-1]`: last element; the default is unreachable on the
non-empty series `run_system` produces. -/
def pyLast (l : List ℚ) : ℚ := l.getLastD 0

/-- Python `min(values)` on a non-empty list (left fold from the head). -/
def pyMin : List ℚ → ℚ
  | [] => 0
  | x :: xs => xs.foldl min x

/-- Python `max(values)` on a non-empty list (left fold from the head). -/
def pyMax : List ℚ → ℚ
  | [] => 0
  | x :: xs => xs.foldl max x

/-- The `final_values` dict built for one experiment (lines 312-325): the
last element of every tuple component, under fixed keys in dict insertion
order. -/
def finalValues (e : ExperimentResult) : List (String × ℚ) :=
  [("final_waitlist_low", pyLast e.C_low),
   ("final_waitlist_high", pyLast e.C_high),
   ("total_waitlist_deaths_low", pyLast e.waitlist_deaths_low),
   ("total_waitlist_deaths_high", pyLast e.waitlist_deaths_high),
   ("total_post_tx_deaths_low", pyLast e.post_tx_deaths_low),
   ("total_post_tx_deaths_high", pyLast e.post_tx_deaths_high),
   ("total_deaths", pyLast e.total_deaths),
   ("total_xeno_used", pyLast e.xeno_used),
   ("final_recipients_low", pyLast e.H_low),
   ("final_recipients_high_std", pyLast e.H_high_std),
   ("final_recipients_high_xeno", pyLast e.H_high_xeno),
   ("simulation_time", pyLast e.times)]

/-- The keys of `finalValues`, in order. -/
def metricKeys : List String :=
  ["final_waitlist_low", "final_waitlist_high",
   "total_waitlist_deaths_low", "total_waitlist_deaths_high",
   "total_post_tx_deaths_low", "total_post_tx_deaths_high",
   "total_deaths", "total_xeno_used",
   "final_recipients_low", "final_recipients_high_std",
   "final_recipients_high_xeno", "simulation_time"]

/-- One metric's summary entry (lines 331-337). The code stores
`std = radicand ** 0.5`; since the square root is not rational, the
radicand (the population variance, divide by N) is stored here as `stdSq`,
and theorems about `std` speak of `Real.sqrt stdSq`. -/
structure MetricStat where
  mean : ℚ
  stdSq : ℚ
  min : ℚ
  max : ℚ
  values : List ℚ
  deriving DecidableEq

/-- The statistics block of lines 331-337 for one key's value list:
`mean = sum/len`, `stdSq = sum((x - sum/len)**2)/len` (population variance,
recomputing the mean inside, exactly as the source does), `min`, `max`, and
the raw value list. -/
def statOf (values : List ℚ) : MetricStat :=
  { mean := values.sum / (values.length : ℚ),
    stdSq := ((values.map (fun x => (x - values.sum / (values.length : ℚ)) ^ 2)).sum)
      / (values.length : ℚ),
    min := pyMin values,
    max := pyMax values,
    values := values }

/-- The summary loop of lines 328-337: iterate over the keys of the first
`final_values` dict; for each key collect that key's value from every dict
(`exp[key]`; the `getD 0` default is unreachable because every dict carries
the same key set) and compute its statistics. -/
def buildSummary (fvs : List (List (String × ℚ))) : List (String × MetricStat) :=
  (fvs.headD []).map
    (fun kv => (kv.1, statOf (fvs.map (fun fv => (dictLookup fv kv.1).getD 0))))

/-- Model of `get_experiment_summary` (lines 282-341): load the results (a load error
propagates), return the empty dict (`none`) when there are none, otherwise
the per-metric statistics together with `num_experiments`. -/
def get_experiment_summary (configName : String) (listing : List String)
    (readFile : String → ExperimentResult) :
    Except String (Option (List (String × MetricStat) × Nat)) :=
  match load_experiment_results configName listing with
  | Except.error e => Except.error e
  | Except.ok files =>
      let experiments := files.map readFile
      if experiments.isEmpty then Except.ok none
      else Except.ok (some (buildSummary (experiments.map finalValues), experiments.length))

/-- Store consistency: every named configuration's hash is present in
`config_to_name`. Fresh stores have it, and every overwrite-free
`manage_experiment_config` call preserves it; the overwrite path can break
it (the spec's documented inconsistency window). -/
def StoreConsistent (s : Store) : Prop :=
  ∀ n c, dictLookup s.name_to_config n = some c →
    (dictLookup s.config_to_name (configHash c)).isSome

/-- Store invariant of claim C10: every name occurring as a value of
`config_to_name` is a key of `name_to_config`. -/
def StoreInv (s : Store) : Prop :=
  ∀ p ∈ s.config_to_name, (dictLookup s.name_to_config p.2).isSome

/-- Example configuration for concrete instances. -/
def cEx : Config :=
  { rates_cpra := [("0-85", 1)], xeno_rates_base := [("85-100", 2)],
    xeno_proportion := 1, low_key := "0-85", high_key := "85-100", T := 3650 }

/-- A second example configuration, differing from `cEx` in one field. -/
def cEx2 : Config := { cEx with xeno_proportion := 2 }

/-- Consistent one-entry store: the store written by
`manage_experiment_config cEx "a" _ none`. -/
def sOne : Store :=
  { name_to_config := [("a", cEx)], config_to_name := [(cEx, "a")] }

/-- Inconsistent store: name "a" is bound to `cEx` but the hash of `cEx` is
absent from `config_to_name`. The overwrite path can leave the store file in
such a state (write `c` under "a", write `c` again under "b" with overwrite,
then overwrite "b" with a different configuration: the hash of `c` is deleted
while "a" still maps to `c`). -/
def sInconsistent : Store :=
  { name_to_config := [("a", cEx)], config_to_name := [] }

/-- Example result whose series are all the single sample 0. -/
def rEx : ExperimentResult :=
  { C_low := [0], C_high := [0], xeno_used := [0], waitlist_deaths_low := [0],
    waitlist_deaths_high := [0], post_tx_deaths_low := [0],
    post_tx_deaths_high := [0], total_deaths := [0], H_low := [0],
    H_high_std := [0], H_high_xeno := [0], times := [0] }

/-- Example result with final total_deaths 10. -/
def rEx10 : ExperimentResult := { rEx with total_deaths := [10] }

/-- Example result with final total_deaths 20. -/
def rEx20 : ExperimentResult := { rEx with total_deaths := [20] }

/-- Example result with final total_deaths 30. -/
def rEx30 : ExperimentResult := { rEx with total_deaths := [30] }

/-- Concrete deserialization function mapping the three example files to the
three example results. -/
def readEx : String → ExperimentResult := fun f =>
  if f = "exp_0.pkl" then rEx10 else if f = "exp_1.pkl" then rEx20 else rEx30

/-- The run-index sort key of a filename, defaulting to 0 when it does not
parse (the default is irrelevant wherever the load succeeded). -/
def runKeyD (f : String) : Int := (pyInt (runIndexStr f)).getD 0

theorem manage_ok_lookup (config : Config) (name : String) (file : Option Store)
    (hcons : StoreConsistent (fileData file)) (n : String) (f' : Option Store)
    (h : manage_experiment_config config name false file = ⟨Except.ok n, f'⟩) :
    dictLookup (fileData f').config_to_name (configHash config) = some n := by
  unfold manage_experiment_config at h
  cases hc : dictLookup (fileData file).config_to_name (configHash config) with
  | some existingName =>
      simp only [hc] at h
      by_cases he : existingName = name
      · simp only [he, if_pos rfl] at h
        obtain ⟨h1, h2⟩ := ManageOutcome.mk.injEq .. ▸ h
        cases h1
        rw [← h2, hc, he]
      · simp only [if_neg he, Bool.false_eq_true, if_false] at h
        obtain ⟨h1, h2⟩ := ManageOutcome.mk.injEq .. ▸ h
        cases h1
        rw [← h2, hc]
  | none =>
      simp only [hc] at h
      unfold manageCase2 at h
      cases hn : dictLookup (fileData file).name_to_config name with
      | some existingConfig =>
          simp only [hn] at h
          by_cases hec : existingConfig = config
          · have hs := hcons name existingConfig hn
            rw [hec] at hs
            rw [hc] at hs
            simp at hs
          · simp only [configHash, if_neg hec, Bool.false_eq_true, if_false] at h
            exact absurd (congrArg ManageOutcome.result h) (by simp)
      | none =>
          simp only [hn] at h
          unfold manageWrite at h
          obtain ⟨h1, h2⟩ := ManageOutcome.mk.injEq .. ▸ h
          cases h1
          rw [← h2]
          exact dictLookup_insert_self ..

/-- C1: the claim as frozen is refuted on a store in which name "a" is bound
to `cEx` while the hash of `cEx` is missing from `config_to_name` (a state
the overwrite path itself can produce): calling with `cEx` and name "a"
returns "a" and leaves the file unchanged, then calling again with the very
same configuration and name "z" returns "z" (a different name) and writes
the store. -/
theorem C1_counterexample :
    manage_experiment_config cEx "a" false (some sInconsistent) =
      { result := Except.ok "a", file := some sInconsistent } ∧
    (manage_experiment_config cEx "z" false (some sInconsistent)).result =
      Except.ok "z" ∧
    ("z" : String) ≠ "a" ∧
    (manage_experiment_config cEx "z" false (some sInconsistent)).file ≠
      some sInconsistent := by
  exact ⟨by decide, by decide, by decide, by decide⟩

/-- C1 (amended): on every store file satisfying `StoreConsistent` (fresh
stores and all overwrite-free histories), two consecutive
`manage_experiment_config` calls with content-equal configurations and
`overwrite = false` return the same name, and the second call leaves the
store file unchanged — in particular the existing name is returned even
when a different name `n2` is requested. -/
theorem C1_dedup_by_content (config : Config) (n1 n2 : String) (file : Option Store)
    (hcons : StoreConsistent (fileData file)) (n : String) (f' : Option Store)
    (h : manage_experiment_config config n1 false file = ⟨Except.ok n, f'⟩) :
    manage_experiment_config config n2 false f' = ⟨Except.ok n, f'⟩ := by
  have hl := manage_ok_lookup config n1 file hcons n f' h
  unfold manage_experiment_config
  rw [hl]
  by_cases hn : n = n2
  · simp [hn]
  · simp [if_neg hn]

/-- C1 witness: from the absent store file, storing `cEx` under "a" and then
calling again with `cEx` and requested name "b" returns "a" again and leaves
the written store untouched. -/
theorem C1_dedup_by_content_witness :
    StoreConsistent (fileData none) ∧
    manage_experiment_config cEx "a" false none = ⟨Except.ok "a", some sOne⟩ ∧
    manage_experiment_config cEx "b" false (some sOne) = ⟨Except.ok "a", some sOne⟩ := by
  have hcons : StoreConsistent (fileData none) := by
    intro n c hnc
    simp [fileData, emptyStore, dictLookup] at hnc
  have h1 : manage_experiment_config cEx "a" false none = ⟨Except.ok "a", some sOne⟩ := by
    decide
  exact ⟨hcons, h1, C1_dedup_by_content cEx "a" "b" none hcons "a" (some sOne) h1⟩

/-- C3: when the requested name is bound to a configuration with a different
hash, the new configuration's hash is absent from the store, and
`overwrite = false`, the call raises the name-conflict `ValueError` and the
store file is exactly the input file — no write happened (the only write in
the function is the final `json.dump`, which the raise precedes). -/
theorem C3_name_conflict_atomic (config oldConfig : Config) (name : String)
    (file : Option Store)
    (h1 : dictLookup (fileData file).config_to_name (configHash config) = none)
    (h2 : dictLookup (fileData file).name_to_config name = some oldConfig)
    (h3 : oldConfig ≠ config) :
    manage_experiment_config config name false file =
      { result := Except.error nameConflictMsg, file := file } := by
  unfold manage_experiment_config
  rw [h1]
  unfold manageCase2
  rw [h2]
  simp [configHash, h3]

/-- C3 witness: storing `cEx2` under the name "a" already bound to `cEx`
without overwrite fails and leaves the one-entry store untouched. -/
theorem C3_name_conflict_atomic_witness :
    dictLookup (fileData (some sOne)).config_to_name (configHash cEx2) = none ∧
    dictLookup (fileData (some sOne)).name_to_config "a" = some cEx ∧
    cEx ≠ cEx2 ∧
    manage_experiment_config cEx2 "a" false (some sOne) =
      { result := Except.error nameConflictMsg, file := some sOne } :=
  ⟨by decide, by decide, by decide,
    C3_name_conflict_atomic cEx2 cEx "a" (some sOne) (by decide) (by decide) (by decide)⟩

/-- C8: overwrite path cleanup. When the requested name is bound to a
different configuration, the new configuration's hash is absent, and
`overwrite = true`, the call deletes the old configuration's hash entry
exactly when that entry still points at the requested name, then writes
`name_to_config[name] = config` and `config_to_name[hash] = name` and
persists the resulting store, returning the name. -/
theorem C8_overwrite_cleanup (config oldConfig : Config) (name : String)
    (file : Option Store)
    (h1 : dictLookup (fileData file).config_to_name (configHash config) = none)
    (h2 : dictLookup (fileData file).name_to_config name = some oldConfig)
    (h3 : oldConfig ≠ config) :
    manage_experiment_config config name true file =
      { result := Except.ok name,
        file := some
          { name_to_config := dictInsert (fileData file).name_to_config name config,
            config_to_name := dictInsert
              (if dictLookup (fileData file).config_to_name (configHash oldConfig) = some name
               then dictErase (fileData file).config_to_name (configHash oldConfig)
               else (fileData file).config_to_name)
              (configHash config) name } } := by
  unfold manage_experiment_config
  rw [h1]
  unfold manageCase2
  rw [h2]
  simp [configHash, h3, manageWrite]

/-- C8 witness: overwriting the name "a" (bound to `cEx`, whose hash entry
still points at "a") with `cEx2` removes the stale hash entry and writes the
new pair. -/
theorem C8_overwrite_cleanup_witness :
    dictLookup (fileData (some sOne)).config_to_name (configHash cEx2) = none ∧
    dictLookup (fileData (some sOne)).name_to_config "a" = some cEx ∧
    cEx ≠ cEx2 ∧
    manage_experiment_config cEx2 "a" true (some sOne) =
      { result := Except.ok "a",
        file := some { name_to_config := [("a", cEx2)],
                       config_to_name := [(cEx2, "a")] } } :=
  ⟨by decide, by decide, by decide, by
    rw [C8_overwrite_cleanup cEx2 cEx "a" (some sOne) (by decide) (by decide) (by decide)]
    decide⟩

/-- C9: `get_name_by_config` returns `none` when the store file is absent or
the configuration's hash is unseen, and after a successful
`manage_experiment_config` call on a fresh store (absent file) it returns the
name that call assigned (which is the requested/generated name). -/
theorem C9_get_name_round_trip :
    (∀ config : Config, get_name_by_config config none = none) ∧
    (∀ (config : Config) (s : Store),
        dictLookup s.config_to_name (configHash config) = none →
        get_name_by_config config (some s) = none) ∧
    (∀ (config : Config) (name : String) (overwrite : Bool),
        (manage_experiment_config config name overwrite none).result = Except.ok name ∧
        get_name_by_config config
            (manage_experiment_config config name overwrite none).file = some name) := by
  refine ⟨fun _ => rfl, fun c s h => by simp [get_name_by_config, h], fun c n ow => ?_⟩
  have hw : manage_experiment_config c n ow none = manageWrite c n emptyStore := by
    unfold manage_experiment_config manageCase2
    simp [fileData, emptyStore, dictLookup]
  rw [hw]
  unfold manageWrite
  refine ⟨rfl, ?_⟩
  simp [get_name_by_config, emptyStore, dictInsert, dictLookup]

/-- C9 witness at a concrete configuration, store and name. -/
theorem C9_get_name_round_trip_witness :
    get_name_by_config cEx none = none ∧
    (dictLookup emptyStore.config_to_name (configHash cEx) = none ∧
     get_name_by_config cEx (some emptyStore) = none) ∧
    ((manage_experiment_config cEx "a" false none).result = Except.ok "a" ∧
     get_name_by_config cEx (manage_experiment_config cEx "a" false none).file =
       some "a") :=
  ⟨C9_get_name_round_trip.1 cEx,
   ⟨by decide, C9_get_name_round_trip.2.1 cEx emptyStore (by decide)⟩,
   C9_get_name_round_trip.2.2 cEx "a" false⟩

theorem storeInv_write (data : Store) (ctn : List (Config × String))
    (hsub : ∀ p ∈ ctn, p ∈ data.config_to_name) (hinv : StoreInv data)
    (config : Config) (name : String) :
    StoreInv { name_to_config := dictInsert data.name_to_config name config,
               config_to_name := dictInsert ctn (configHash config) name } := by
  intro p hp
  rcases mem_dictInsert _ _ _ _ hp with h1 | h1
  · rw [h1]
    simp [dictLookup_insert_self]
  · exact dictLookup_insert_isSome _ _ _ _ (hinv p (hsub p h1))

theorem manageCase2_inv (config : Config) (name : String) (overwrite : Bool)
    (file : Option Store) (hinv : StoreInv (fileData file)) (s' : Store)
    (hs' : (manageCase2 config name overwrite file (fileData file)).file = some s') :
    StoreInv s' ∧
    ∀ n₀, (dictLookup (fileData file).name_to_config n₀).isSome →
      (dictLookup s'.name_to_config n₀).isSome := by
  unfold manageCase2 at hs'
  split at hs'
  next existingConfig hn =>
    split at hs'
    next hec =>
      have hf : file = some s' := hs'
      subst hf
      exact ⟨hinv, fun _ h => h⟩
    next hec =>
      split at hs'
      next hov =>
        simp only [manageWrite, Option.some.injEq] at hs'
        subst hs'
        constructor
        · refine storeInv_write _ _ ?_ hinv config name
          intro p hp
          by_cases hd : dictLookup (fileData file).config_to_name
              (configHash existingConfig) = some name
          · rw [if_pos hd] at hp
            exact mem_dictErase _ _ _ hp
          · rw [if_neg hd] at hp
            exact hp
        · exact fun n₀ h => dictLookup_insert_isSome _ _ _ _ h
      next hov =>
        have hf : file = some s' := hs'
        subst hf
        exact ⟨hinv, fun _ h => h⟩
  next hn =>
    simp only [manageWrite, Option.some.injEq] at hs'
    subst hs'
    exact ⟨storeInv_write _ _ (fun _ hp => hp) hinv config name,
      fun n₀ h => dictLookup_insert_isSome _ _ _ _ h⟩

/-- C10: every successful `manage_experiment_config` call preserves the
invariant that every name occurring as a value of `config_to_name` is a key
of `name_to_config`; moreover no name is ever removed from `name_to_config`
(keys present before are present after). The written `config_to_name` entry
points at the name simultaneously written into `name_to_config` (this is the
first disjunct inside `storeInv_write`). -/
theorem C10_store_invariant (config : Config) (name : String) (overwrite : Bool)
    (file : Option Store) (hinv : StoreInv (fileData file)) (n' : String)
    (hok : (manage_experiment_config config name overwrite file).result = Except.ok n') :
    ∀ s', (manage_experiment_config config name overwrite file).file = some s' →
      StoreInv s' ∧
      ∀ n₀, (dictLookup (fileData file).name_to_config n₀).isSome →
        (dictLookup s'.name_to_config n₀).isSome := by
  intro s' hs'
  unfold manage_experiment_config at hs'
  split at hs'
  next existingName hc =>
    split at hs'
    next he =>
      have hf : file = some s' := hs'
      subst hf
      exact ⟨hinv, fun _ h => h⟩
    next he =>
      split at hs'
      next hov => exact manageCase2_inv config name overwrite file hinv s' hs'
      next hov =>
        have hf : file = some s' := hs'
        subst hf
        exact ⟨hinv, fun _ h => h⟩
  next hc => exact manageCase2_inv config name overwrite file hinv s' hs'

/-- C10 witness: a successful overwrite call on the consistent one-entry
store preserves the invariant and keeps the existing name. -/
theorem C10_store_invariant_witness :
    StoreInv (fileData (some sOne)) ∧
    (manage_experiment_config cEx2 "a" true (some sOne)).result = Except.ok "a" ∧
    (StoreInv { name_to_config := [("a", cEx2)], config_to_name := [(cEx2, "a")] } ∧
     ∀ n₀, (dictLookup (fileData (some sOne)).name_to_config n₀).isSome →
       (dictLookup ({ name_to_config := [("a", cEx2)],
                      config_to_name := [(cEx2, "a")] } : Store).name_to_config n₀).isSome) := by
  have hinv : StoreInv (fileData (some sOne)) := by
    intro p hp
    rcases (by simpa [sOne, fileData] using hp : p = (cEx, "a")) with rfl
    decide
  refine ⟨hinv, by decide, ?_⟩
  exact C10_store_invariant cEx2 "a" true (some sOne) hinv "a" (by decide)
    { name_to_config := [("a", cEx2)], config_to_name := [(cEx2, "a")] } (by decide)

theorem fileKeys_eq_some (files : List String) (keyed : List (Int × String))
    (h : fileKeys files = some keyed) :
    keyed.map Prod.snd = files ∧ ∀ p ∈ keyed, pyInt (runIndexStr p.2) = some p.1 := by
  induction files generalizing keyed with
  | nil =>
      simp only [fileKeys, Option.some.injEq] at h
      subst h
      simp
  | cons f rest ih =>
      unfold fileKeys at h
      split at h
      next k ks hpk hfk =>
        simp only [Option.some.injEq] at h
        subst h
        obtain ⟨h1, h2⟩ := ih ks hfk
        refine ⟨by simp [h1], ?_⟩
        intro p hp2
        rcases List.mem_cons.mp hp2 with rfl | hmem
        · exact hpk
        · exact h2 p hmem
      next => exact Option.noConfusion h

theorem fileKeys_eq_none (files : List String)
    (h : ∃ f ∈ files, pyInt (runIndexStr f) = none) : fileKeys files = none := by
  induction files with
  | nil => simp at h
  | cons f rest ih =>
      unfold fileKeys
      rcases h with ⟨g, hg, hgn⟩
      rcases List.mem_cons.mp hg with rfl | hmem
      · cases hfr : fileKeys rest <;> simp [hgn, hfr]
      · have hrest := ih ⟨g, hmem, hgn⟩
        cases hpf : pyInt (runIndexStr f) <;> simp [hpf, hrest]

/-- C5: every successful load returns exactly the matching files, as a list
sorted ascending by the integer run index parsed from the filename (numeric
order, not lexicographic); on the files exp_0.pkl, exp_10.pkl, exp_2.pkl the
load order is 0, 2, 10. -/
theorem C5_numeric_load_order :
    (∀ (configName : String) (listing files : List String),
        load_experiment_results configName listing = Except.ok files →
        files.Perm (matchingFiles configName listing) ∧
        files.Pairwise (fun a b => runKeyD a ≤ runKeyD b)) ∧
    load_experiment_results "exp" ["exp_0.pkl", "exp_10.pkl", "exp_2.pkl"] =
      Except.ok ["exp_0.pkl", "exp_2.pkl", "exp_10.pkl"] := by
  constructor
  · intro cn l files h
    unfold load_experiment_results at h
    split at h
    next => exact Except.noConfusion h
    next keyed hk =>
      simp only [Except.ok.injEq] at h
      subst h
      obtain ⟨hmap, hall⟩ := fileKeys_eq_some _ _ hk
      constructor
      · exact (((keyed.perm_insertionSort _).map Prod.snd).trans (hmap ▸ List.Perm.refl _))
      · rw [List.pairwise_map]
        haveI : IsTotal (Int × String) (fun a b => a.1 ≤ b.1) :=
          ⟨fun a b => le_total a.1 b.1⟩
        haveI : IsTrans (Int × String) (fun a b => a.1 ≤ b.1) :=
          ⟨fun a b c hab hbc => le_trans hab hbc⟩
        have hsorted := List.sorted_insertionSort (fun a b : Int × String => a.1 ≤ b.1) keyed
        refine hsorted.imp_of_mem ?_
        intro a b ha hb hab
        have ha2 := hall a ((keyed.perm_insertionSort _).mem_iff.mp ha)
        have hb2 := hall b ((keyed.perm_insertionSort _).mem_iff.mp hb)
        simpa [runKeyD, ha2, hb2] using hab
  · decide

/-- C5 witness: a successful load on a concrete three-file listing is a
permutation of the matching files, pairwise sorted by run index. -/
theorem C5_numeric_load_order_witness :
    load_experiment_results "exp" ["exp_0.pkl", "exp_10.pkl", "exp_2.pkl"] =
      Except.ok ["exp_0.pkl", "exp_2.pkl", "exp_10.pkl"] ∧
    (["exp_0.pkl", "exp_2.pkl", "exp_10.pkl"] : List String).Perm
      (matchingFiles "exp" ["exp_0.pkl", "exp_10.pkl", "exp_2.pkl"]) ∧
    (["exp_0.pkl", "exp_2.pkl", "exp_10.pkl"] : List String).Pairwise
      (fun a b => runKeyD a ≤ runKeyD b) := by
  have h := C5_numeric_load_order.2
  have h2 := C5_numeric_load_order.1 "exp" ["exp_0.pkl", "exp_10.pkl", "exp_2.pkl"]
    ["exp_0.pkl", "exp_2.pkl", "exp_10.pkl"] h
  exact ⟨h, h2.1, h2.2⟩

/-- C6: whenever some matching filename's trailing segment before the
extension is not an integer, the whole load aborts with the propagated
`ValueError` — no partial result is returned (the error is the entire
outcome). -/
theorem C6_parse_error_aborts (configName : String) (listing : List String)
    (h : ∃ f ∈ matchingFiles configName listing, pyInt (runIndexStr f) = none) :
    load_experiment_results configName listing = Except.error intParseMsg := by
  unfold load_experiment_results
  rw [fileKeys_eq_none _ h]

/-- C6 witness: the listing with the single file exp_a.pkl (run segment "a")
aborts the load. -/
theorem C6_parse_error_aborts_witness :
    (∃ f ∈ matchingFiles "exp" ["exp_a.pkl"], pyInt (runIndexStr f) = none) ∧
    load_experiment_results "exp" ["exp_a.pkl"] = Except.error intParseMsg :=
  ⟨by decide, C6_parse_error_aborts "exp" ["exp_a.pkl"] (by decide)⟩

/-- C7: when the experiment folder contains no matching files, the result
list is empty and `get_experiment_summary` returns the empty dict (`none`)
without any error — in particular no division by zero is reached, because
the statistics block is guarded by the emptiness check. -/
theorem C7_empty_results_empty_summary (configName : String) (listing : List String)
    (readFile : String → ExperimentResult)
    (h : matchingFiles configName listing = []) :
    get_experiment_summary configName listing readFile = Except.ok none := by
  unfold get_experiment_summary load_experiment_results
  rw [h]
  simp [fileKeys]

/-- C7 witness: a listing with no matching file yields the empty summary. -/
theorem C7_empty_results_empty_summary_witness :
    matchingFiles "exp" ["readme.txt"] = [] ∧
    get_experiment_summary "exp" ["readme.txt"] (fun _ => rEx) = Except.ok none :=
  ⟨by decide, C7_empty_results_empty_summary "exp" ["readme.txt"] (fun _ => rEx) (by decide)⟩

/-- C2: the claim of exactly 11 extracted final-state values and 11
summarized metrics is refuted on a concrete result: the tuple unpacking at
lines 309-310 has 12 components and the `final_values` dict of lines 312-325
has 12 entries (the 11 time series plus the time axis, whose last element is
stored as `simulation_time`), so a one-result summary carries 12 metric
entries, not 11. -/
theorem C2_counterexample :
    (finalValues rEx).length = 12 ∧ ¬(finalValues rEx).length = 11 ∧
    get_experiment_summary "exp" ["exp_0.pkl"] (fun _ => rEx) =
      Except.ok (some (buildSummary [finalValues rEx], 1)) ∧
    (buildSummary [finalValues rEx]).length = 12 ∧
    ¬(buildSummary [finalValues rEx]).length = 11 :=
  ⟨by decide, by decide, by rfl, by decide, by decide⟩

/-- C2 (amended): for every result, `get_experiment_summary` extracts
exactly 12 scalar final-state values (the last element of each of the 12
tuple fields — the 11 time series and the time axis — under the fixed keys
in the fixed positional order of the unpacking), and every non-empty
summary contains statistics for exactly these 12 metrics, plus the
experiment count as the separate `num_experiments` component. -/
theorem C2_twelve_metrics :
    (∀ e : ExperimentResult,
        finalValues e =
          [("final_waitlist_low", pyLast e.C_low),
           ("final_waitlist_high", pyLast e.C_high),
           ("total_waitlist_deaths_low", pyLast e.waitlist_deaths_low),
           ("total_waitlist_deaths_high", pyLast e.waitlist_deaths_high),
           ("total_post_tx_deaths_low", pyLast e.post_tx_deaths_low),
           ("total_post_tx_deaths_high", pyLast e.post_tx_deaths_high),
           ("total_deaths", pyLast e.total_deaths),
           ("total_xeno_used", pyLast e.xeno_used),
           ("final_recipients_low", pyLast e.H_low),
           ("final_recipients_high_std", pyLast e.H_high_std),
           ("final_recipients_high_xeno", pyLast e.H_high_xeno),
           ("simulation_time", pyLast e.times)] ∧
        (finalValues e).length = 12) ∧
    (∀ (configName : String) (listing : List String)
        (readFile : String → ExperimentResult)
        (m : List (String × MetricStat)) (k : Nat),
        get_experiment_summary configName listing readFile = Except.ok (some (m, k)) →
        m.map Prod.fst = metricKeys ∧ m.length = 12 ∧ k ≠ 0) := by
  refine ⟨fun e => ⟨rfl, rfl⟩, ?_⟩
  intro cn l rf m k h
  unfold get_experiment_summary at h
  split at h
  next => exact Except.noConfusion h
  next files hl =>
    by_cases hfe : (files.map rf).isEmpty
    · rw [if_pos hfe] at h
      simp at h
    · rw [if_neg hfe] at h
      simp only [Except.ok.injEq, Option.some.injEq, Prod.mk.injEq] at h
      obtain ⟨hm, hk⟩ := h
      subst hm
      cases hes : files.map rf with
      | nil => rw [hes] at hfe; simp at hfe
      | cons e es =>
          have hk0 : k ≠ 0 := by
            rw [← hk, hes]
            simp
          exact ⟨by simp [buildSummary, finalValues, metricKeys],
            by simp [buildSummary, finalValues], hk0⟩

/-- C2 witness: the amended count at a concrete one-file summary. -/
theorem C2_twelve_metrics_witness :
    (finalValues rEx).length = 12 ∧
    ((buildSummary [finalValues rEx]).map Prod.fst = metricKeys ∧
     (buildSummary [finalValues rEx]).length = 12 ∧ (1 : Nat) ≠ 0) :=
  ⟨(C2_twelve_metrics.1 rEx).2,
   C2_twelve_metrics.2 "exp" ["exp_0.pkl"] (fun _ => rEx)
     (buildSummary [finalValues rEx]) 1 (by rfl)⟩

/-- C4: for three results whose final total_deaths values are 10, 20 and 30,
the summary entry for total_deaths has mean 20, population variance 200/3
(so the stored std, its square root under the code's `** 0.5`, is
√(200/3)), min 10, max 30, and the raw value list [10, 20, 30]. -/
theorem C4_summary_statistics :
    dictLookup (buildSummary [finalValues rEx10, finalValues rEx20, finalValues rEx30])
        "total_deaths" =
      some { mean := 20, stdSq := 200/3, min := 10, max := 30,
             values := [10, 20, 30] } ∧
    (dictLookup (buildSummary [finalValues rEx10, finalValues rEx20, finalValues rEx30])
        "total_deaths").map (fun s => Real.sqrt (s.stdSq : ℝ)) =
      some (Real.sqrt ((200/3 : ℚ) : ℝ)) := by
  have h1 : dictLookup
      (buildSummary [finalValues rEx10, finalValues rEx20, finalValues rEx30])
      "total_deaths" = some (statOf [10, 20, 30]) := rfl
  have h2 : statOf [10, 20, 30] =
      { mean := 20, stdSq := 200/3, min := 10, max := 30, values := [10, 20, 30] } := by
    simp only [statOf, pyMin, pyMax, List.foldl, List.sum_cons, List.sum_nil,
      List.map, List.length]
    norm_num
  rw [h1, h2]
  exact ⟨rfl, rfl⟩

end ConfigManager
